import Mathlib

/-!
# Verification of the seek-based ZIP reader (`src/read/seek.rs`)

A shallow embedding of the seek-based ZIP archive reader.  The seekable byte
source is modelled as a finite stream of bytes (a length together with a byte
function); the reader's cursor is threaded explicitly.  Fallible operations
return `Except ZipError`; the two `Option::unwrap` calls in `entry_reader`
are modelled by an outer `Option` whose `none` stands for a panic.

The functions `read_cd`, `read_cd_entry`, `entry_reader` and `find_entry`
are translated directly from `src/read/seek.rs`.  The record decoders
(`EndOfCentralDirectoryHeader`, `CentralDirectoryHeader`, `LocalFileHeader`),
the byte/string helpers, the compression-id dispatch and the
delimiter-scanning reader live outside that file and are modelled from the
specification's interface contracts (§2, §6, §9 of the spec).
-/

set_option autoImplicit false

/-- A seekable byte source: a stream length and the byte stored at each
position.  Bytes are reduced modulo 256 when read (`byteAt`). -/
structure ByteStream where
  len : Nat
  byte : Nat → Nat

/-- The byte visible at a position (a `u8` in the source). -/
def byteAt (s : ByteStream) (pos : Nat) : Nat := s.byte pos % 256

/-- The `n` bytes starting at `start` (bounds are the caller's concern). -/
def bytesAt (s : ByteStream) (start n : Nat) : List Nat :=
  (List.range n).map (fun k => byteAt s (start + k))

/-- A little-endian `u16` read at `pos`. -/
def leU16 (s : ByteStream) (pos : Nat) : Nat :=
  byteAt s pos + 256 * byteAt s (pos + 1)

/-- A little-endian `u32` read at `pos`. -/
def leU32 (s : ByteStream) (pos : Nat) : Nat :=
  byteAt s pos + 256 * byteAt s (pos + 1) + 65536 * byteAt s (pos + 2) +
    16777216 * byteAt s (pos + 3)

/-- The little-endian byte serialization of a `u32` value
(`u32::to_le_bytes` in the source). -/
def toLeBytes (n : Nat) : List Nat :=
  [n % 256, n / 256 % 256, n / 65536 % 256, n / 16777216 % 256]

/-- The error type of the reader (`crate::error::ZipError`), restricted to
the variants reachable from `src/read/seek.rs`. -/
inductive ZipError where
  /-- An expected header (signature) was absent or wrong. -/
  | unexpectedHeaderError (actual expected : Nat)
  /-- A recognized but unsupported format feature. -/
  | featureNotSupported (feature : String)
  /-- An entry index beyond the directory's bounds. -/
  | entryIndexOutOfBounds
  /-- An unknown compression method identifier. -/
  | unsupportedCompressionError (id : Nat)
  /-- An I/O failure of the underlying source (here: a read past the end of
  the stream). -/
  | upstreamReadError
  deriving DecidableEq

deriving instance DecidableEq for Except

/-- Signature of the end-of-central-directory (trailer) record
(`crate::spec::signature::END_OF_CENTRAL_DIRECTORY`). -/
def END_OF_CENTRAL_DIRECTORY : Nat := 0x06054b50

/-- Signature of a central-directory file header
(`crate::spec::signature::CENTRAL_DIRECTORY_FILE_HEADER`). -/
def CENTRAL_DIRECTORY_FILE_HEADER : Nat := 0x02014b50

/-- Signature of a data descriptor record
(`crate::spec::signature::DATA_DESCRIPTOR`). -/
def DATA_DESCRIPTOR : Nat := 0x08074b50

/-- Modelled from the spec: the generic byte helper `crate::utils::read_bytes`
(read exactly `n` bytes, failing on a premature end of stream), which is not
under `src/`. -/
def read_bytes (s : ByteStream) (pos n : Nat) : Except ZipError (List Nat × Nat) :=
  if pos + n ≤ s.len then .ok (bytesAt s pos n, pos + n)
  else .error .upstreamReadError

/-- Modelled from the spec: `crate::utils::assert_signature` (read a 4-byte
little-endian value and compare it with the expected signature), which is not
under `src/`. -/
def assert_signature (s : ByteStream) (pos expected : Nat) : Except ZipError Nat :=
  if pos + 4 ≤ s.len then
    if leU32 s pos = expected then .ok (pos + 4)
    else .error (.unexpectedHeaderError (leU32 s pos) expected)
  else .error .upstreamReadError

/-- Does the 4-byte (or general) signature `sig` occur byte-for-byte at
position `start`, entirely inside the stream? -/
def matchesAt (s : ByteStream) (sig : List Nat) (start : Nat) : Bool :=
  decide (start + sig.length ≤ s.len) && decide (bytesAt s start sig.length = sig)

/-- Modelled from the spec: the delimiter-scanning reader capability
(`AsyncDelimiterReader`, §2.2/§9 of the spec): stream forward from `start`
and report the first position where the delimiter occurs, or `none` when the
stream ends without a match.  `fuel` bounds the scan; `read_cd` passes a fuel
that covers the whole stream. -/
def findFrom (s : ByteStream) (sig : List Nat) : Nat → Nat → Option Nat
  | _, 0 => none
  | start, fuel + 1 =>
    if matchesAt s sig start then some start
    else findFrom s sig (start + 1) fuel

/-- The compression methods of the closed dispatch
(`crate::spec::compression::Compression`). -/
inductive Compression where
  | stored
  | deflate
  | bz
  | lzma
  | zstd
  | xz
  deriving DecidableEq

/-- Modelled from the spec: the closed map from compression-method
identifiers to methods (`Compression::from_u16`); unknown identifiers are a
recoverable construction error (§9 of the spec). -/
def Compression.from_u16 (value : Nat) : Except ZipError Compression :=
  match value with
  | 0 => .ok .stored
  | 8 => .ok .deflate
  | 12 => .ok .bz
  | 14 => .ok .lzma
  | 93 => .ok .zstd
  | 95 => .ok .xz
  | v => .error (.unsupportedCompressionError v)

/-- The general-purpose flag word decoded into the two flags the reader
consumes (`crate::spec::header::GeneralPurposeFlag`). -/
structure GeneralPurposeFlag where
  encrypted : Bool
  data_descriptor : Bool
  deriving DecidableEq

/-- Modelled from the spec: flag-word decoding; the descriptor flag is bit 3
of the 16-bit flag field. -/
def GeneralPurposeFlag.from_u16 (value : Nat) : GeneralPurposeFlag :=
  { encrypted := value / 1 % 2 = 1, data_descriptor := value / 8 % 2 = 1 }

/-- The fixed portion of the trailer record
(`crate::spec::header::EndOfCentralDirectoryHeader`): 18 bytes following the
4-byte signature. -/
structure EndOfCentralDirectoryHeader where
  disk_num : Nat
  start_cent_dir_disk : Nat
  num_of_entries_disk : Nat
  num_of_entries : Nat
  size_cent_dir : Nat
  cent_dir_offset : Nat
  file_comm_length : Nat
  deriving DecidableEq

/-- Modelled from the spec: the fixed-layout trailer decoder
(`EndOfCentralDirectoryHeader::from_reader`), not under `src/`.  Reads the 18
fixed bytes after the signature and returns the header and the new cursor. -/
def EndOfCentralDirectoryHeader.from_reader (s : ByteStream) (pos : Nat) :
    Except ZipError (EndOfCentralDirectoryHeader × Nat) :=
  if pos + 18 ≤ s.len then
    .ok ({ disk_num := leU16 s pos
           start_cent_dir_disk := leU16 s (pos + 2)
           num_of_entries_disk := leU16 s (pos + 4)
           num_of_entries := leU16 s (pos + 6)
           size_cent_dir := leU32 s (pos + 8)
           cent_dir_offset := leU32 s (pos + 12)
           file_comm_length := leU16 s (pos + 16) }, pos + 18)
  else .error .upstreamReadError

/-- The fixed portion of a central-directory file header
(`crate::spec::header::CentralDirectoryHeader`): 42 bytes following the
4-byte signature. -/
structure CentralDirectoryHeader where
  v_made_by : Nat
  v_needed : Nat
  flags : GeneralPurposeFlag
  compression : Nat
  mod_time : Nat
  mod_date : Nat
  crc : Nat
  compressed_size : Nat
  uncompressed_size : Nat
  file_name_length : Nat
  extra_field_length : Nat
  file_comment_length : Nat
  disk_start : Nat
  inter_attr : Nat
  exter_attr : Nat
  lh_offset : Nat
  deriving DecidableEq

/-- Modelled from the spec: the fixed-layout directory-entry decoder
(`CentralDirectoryHeader::from_reader`), not under `src/`. -/
def CentralDirectoryHeader.from_reader (s : ByteStream) (pos : Nat) :
    Except ZipError (CentralDirectoryHeader × Nat) :=
  if pos + 42 ≤ s.len then
    .ok ({ v_made_by := leU16 s pos
           v_needed := leU16 s (pos + 2)
           flags := GeneralPurposeFlag.from_u16 (leU16 s (pos + 4))
           compression := leU16 s (pos + 6)
           mod_time := leU16 s (pos + 8)
           mod_date := leU16 s (pos + 10)
           crc := leU32 s (pos + 12)
           compressed_size := leU32 s (pos + 16)
           uncompressed_size := leU32 s (pos + 20)
           file_name_length := leU16 s (pos + 24)
           extra_field_length := leU16 s (pos + 26)
           file_comment_length := leU16 s (pos + 28)
           disk_start := leU16 s (pos + 30)
           inter_attr := leU16 s (pos + 32)
           exter_attr := leU32 s (pos + 34)
           lh_offset := leU32 s (pos + 38) }, pos + 42)
  else .error .upstreamReadError

/-- The fixed portion of a local file header
(`crate::spec::header::LocalFileHeader`): 26 bytes following the 4-byte
signature. -/
structure LocalFileHeader where
  version : Nat
  flags : GeneralPurposeFlag
  compression : Nat
  mod_time : Nat
  mod_date : Nat
  crc : Nat
  compressed_size : Nat
  uncompressed_size : Nat
  file_name_length : Nat
  extra_field_length : Nat
  deriving DecidableEq

/-- Modelled from the spec: the fixed-layout local-record decoder
(`LocalFileHeader::from_reader`), not under `src/`. -/
def LocalFileHeader.from_reader (s : ByteStream) (pos : Nat) :
    Except ZipError (LocalFileHeader × Nat) :=
  if pos + 26 ≤ s.len then
    .ok ({ version := leU16 s pos
           flags := GeneralPurposeFlag.from_u16 (leU16 s (pos + 2))
           compression := leU16 s (pos + 4)
           mod_time := leU16 s (pos + 6)
           mod_date := leU16 s (pos + 8)
           crc := leU32 s (pos + 10)
           compressed_size := leU32 s (pos + 14)
           uncompressed_size := leU32 s (pos + 18)
           file_name_length := leU16 s (pos + 22)
           extra_field_length := leU16 s (pos + 24) }, pos + 26)
  else .error .upstreamReadError

/-- Modelled from the spec: `crate::spec::date::zip_date_to_chrono` decodes
the two packed 16-bit date/time fields into a calendar timestamp; the claims
never inspect the result, so the timestamp is modelled as the pair itself. -/
def zip_date_to_chrono (date time : Nat) : Nat × Nat := (date, time)

/-- A parsed directory entry (`crate::read::ZipEntry`), with the `Option`
fields exactly as in the source. -/
structure ZipEntry where
  name : List Nat
  comment : Option (List Nat)
  data_descriptor : Bool
  crc32 : Option Nat
  uncompressed_size : Option Nat
  compressed_size : Option Nat
  last_modified : Nat × Nat
  extra : Option (List Nat)
  compression : Compression
  offset : Option Nat
  deriving DecidableEq

/-- `MAX_ENDING_LENGTH` from `read_cd` in `src/read/seek.rs`:
`(u16::MAX - 2) as u64`. -/
def MAX_ENDING_LENGTH : Nat := 65535 - 2

/-- The position `read_cd` seeks to before its forward scan:
`length.saturating_sub(MAX_ENDING_LENGTH)` (Nat subtraction saturates). -/
def cdSeekTo (length : Nat) : Nat := length - MAX_ENDING_LENGTH

/-- Translation of `read_cd_entry` (`src/read/seek.rs:153-175`): assert the
central-directory signature, decode the fixed header, read the three
variable-length fields, resolve the compression method, and build the entry
with every optional field populated. -/
def read_cd_entry (s : ByteStream) (pos : Nat) : Except ZipError (ZipEntry × Nat) := do
  let pos ← assert_signature s pos CENTRAL_DIRECTORY_FILE_HEADER
  let (header, pos) ← CentralDirectoryHeader.from_reader s pos
  let (filename, pos) ← read_bytes s pos header.file_name_length
  let (extra, pos) ← read_bytes s pos header.extra_field_length
  let (commentBytes, pos) ← read_bytes s pos header.file_comment_length
  let compression ← Compression.from_u16 header.compression
  .ok ({ name := filename
         comment := some commentBytes
         data_descriptor := header.flags.data_descriptor
         crc32 := some header.crc
         uncompressed_size := some header.uncompressed_size
         compressed_size := some header.compressed_size
         last_modified := zip_date_to_chrono header.mod_date header.mod_time
         extra := some extra
         compression := compression
         offset := some header.lh_offset }, pos)

/-- The `for _ in 0..eocdh.num_of_entries` loop of `read_cd`
(`src/read/seek.rs:146-148`): decode exactly `n` directory entries
sequentially, aborting on the first failure. -/
def read_cd_loop (s : ByteStream) : Nat → Nat → Except ZipError (List ZipEntry × Nat)
  | pos, 0 => .ok ([], pos)
  | pos, n + 1 => do
    let (entry, pos1) ← read_cd_entry s pos
    let (rest, pos2) ← read_cd_loop s pos1 n
    .ok (entry :: rest, pos2)

/-- Translation of `read_cd` (`src/read/seek.rs:107-151`): seek to the end to
learn the length, seek back by `MAX_ENDING_LENGTH`, scan forward for the
trailer signature, decode the trailer, reject spanned archives, read the
optional comment, then decode `num_of_entries` directory records starting at
`cent_dir_offset`. -/
def read_cd (s : ByteStream) : Except ZipError (List ZipEntry × Option (List Nat)) :=
  let length := s.len
  let seek_to := cdSeekTo length
  match findFrom s (toLeBytes END_OF_CENTRAL_DIRECTORY) seek_to (length + 1) with
  | none => .error (.unexpectedHeaderError 0 END_OF_CENTRAL_DIRECTORY)
  | some sigPos => do
    let (eocdh, pos1) ← EndOfCentralDirectoryHeader.from_reader s (sigPos + 4)
    if eocdh.disk_num ≠ eocdh.start_cent_dir_disk ∨
        eocdh.num_of_entries ≠ eocdh.num_of_entries_disk then
      .error (.featureNotSupported "Spanned/split files")
    else do
      let comment ←
        if eocdh.file_comm_length > 0 then do
          let (c, _) ← read_bytes s pos1 eocdh.file_comm_length
          pure (some c)
        else pure (none : Option (List Nat))
      let (entries, _) ← read_cd_loop s eocdh.cent_dir_offset eocdh.num_of_entries
      .ok (entries, comment)

/-- The mutable state of `SeekMethod`: the reader's cursor position plus the
entry list and archive comment built at open. -/
structure ArchiveState where
  pos : Nat
  entries : List ZipEntry
  comment : Option (List Nat)
  deriving DecidableEq

/-- Translation of `ZipFileReader::new` for the seek method
(`src/read/seek.rs:50-55`): run `read_cd` once and store its results. -/
def seekMethodNew (s : ByteStream) : Except ZipError ArchiveState :=
  match read_cd s with
  | .ok (entries, comment) => .ok { pos := 0, entries := entries, comment := comment }
  | .error e => .error e

/-- The loop body of `entry` (`src/read/seek.rs:63-71`) with the running
index made explicit. -/
def entry_loop (name : List Nat) : List ZipEntry → Nat → Option (Nat × ZipEntry)
  | [], _ => none
  | e :: rest, index =>
    if e.name = name then some (index, e) else entry_loop name rest (index + 1)

/-- Translation of `entry` (`src/read/seek.rs:62-71`): linear scan over the
entry list, first name match wins. -/
def find_entry (entries : List ZipEntry) (name : List Nat) : Option (Nat × ZipEntry) :=
  entry_loop name entries 0

/-- `u64::MAX`, the read limit passed to `take` in the data-descriptor
branch of `entry_reader`. -/
def U64_MAX : Nat := 2 ^ 64 - 1

/-- The stream configuration `entry_reader` returns, recording how the
payload reader pipeline is wired: where payload reading starts, the
delimiter the scanning reader stops at (`none` in the bounded case), the
`take` read limit, the compression method handed to the dispatch, and which
`ZipEntryReader` constructor was used. -/
structure EntryStreamDesc where
  startPos : Nat
  delimiter : Option (List Nat)
  limit : Nat
  compression : Compression
  fromDataDescriptor : Bool
  deriving DecidableEq

/-- Translation of `entry_reader` (`src/read/seek.rs:79-104`).  The outer
`Option` models the two `unwrap` calls: `none` is a panic.  The result pairs
the returned value (or error) with the state after the call; the
out-of-bounds error is raised before any seek, so the state is returned
unchanged there. -/
def entry_reader (s : ByteStream) (st : ArchiveState) (index : Nat) :
    Option (Except ZipError EntryStreamDesc × ArchiveState) :=
  match st.entries[index]? with
  | none => some (.error .entryIndexOutOfBounds, st)
  | some entry =>
    match entry.offset with
    | none => none
    | some off =>
      let st1 : ArchiveState := { st with pos := off + 4 }
      match LocalFileHeader.from_reader s st1.pos with
      | .error e => some (.error e, st1)
      | .ok (header, pos1) =>
        let data_offset := header.file_name_length + header.extra_field_length
        let st2 : ArchiveState := { st1 with pos := pos1 + data_offset }
        if entry.data_descriptor then
          some (.ok { startPos := st2.pos
                      delimiter := some (toLeBytes DATA_DESCRIPTOR)
                      limit := U64_MAX
                      compression := entry.compression
                      fromDataDescriptor := true }, st2)
        else
          match entry.compressed_size with
          | none => none
          | some csize =>
            some (.ok { startPos := st2.pos
                        delimiter := none
                        limit := csize
                        compression := entry.compression
                        fromDataDescriptor := false }, st2)

/-! ## Helper lemmas -/

theorem findFrom_eq_none (s : ByteStream) (sig : List Nat) (start fuel : Nat)
    (h : ∀ i, start ≤ i → matchesAt s sig i = false) :
    findFrom s sig start fuel = none := by
  induction fuel generalizing start with
  | zero => rfl
  | succ fuel ih =>
    unfold findFrom
    rw [h start le_rfl]
    exact ih (start + 1) (fun i hi => h i (by omega))

theorem read_cd_scan_misses (s : ByteStream)
    (h : ∀ i, cdSeekTo s.len ≤ i →
      matchesAt s (toLeBytes END_OF_CENTRAL_DIRECTORY) i = false) :
    read_cd s = .error (.unexpectedHeaderError 0 END_OF_CENTRAL_DIRECTORY) := by
  have hnone := findFrom_eq_none s _ (cdSeekTo s.len) (s.len + 1) h
  simp only [read_cd]
  rw [hnone]

theorem matchesAt_false_of_oob (s : ByteStream) (sig : List Nat) (i : Nat)
    (hsig : sig ≠ []) (h : s.len ≤ i) : matchesAt s sig i = false := by
  unfold matchesAt
  have : ¬ (i + sig.length ≤ s.len) := by
    have : 0 < sig.length := List.length_pos.mpr hsig
    omega
  simp [this]

theorem lfh_from_reader_pos (s : ByteStream) (pos : Nat) (h : LocalFileHeader)
    (pos1 : Nat) (hdec : LocalFileHeader.from_reader s pos = .ok (h, pos1)) :
    pos1 = pos + 26 := by
  unfold LocalFileHeader.from_reader at hdec
  split at hdec
  · cases hdec; rfl
  · cases hdec

/-! ## Concrete fixtures -/

/-- A minimal well-formed archive: a single 22-byte trailer record (empty
directory, zero-length comment). -/
def emptyZipArchive : ByteStream where
  len := 22
  byte := fun i =>
    if i = 0 then 80 else if i = 1 then 75 else if i = 2 then 5 else
    if i = 3 then 6 else 0

/-- A well-formed archive whose trailer carries a 65535-byte (all-zero)
comment: a 22-byte trailer record with comment length `0xFFFF` (bytes 20-21)
followed by 65535 zero bytes; total length 65557. -/
def maxCommentArchive : ByteStream where
  len := 65557
  byte := fun i =>
    if i = 0 then 80 else if i = 1 then 75 else if i = 2 then 5 else
    if i = 3 then 6 else if i = 20 then 255 else if i = 21 then 255 else 0

/-- A 22-byte trailer record whose "this disk number" field is 1 while the
"disk where the directory starts" field is 0: a spanned archive's trailer. -/
def spannedArchive : ByteStream where
  len := 22
  byte := fun i =>
    if i = 0 then 80 else if i = 1 then 75 else if i = 2 then 5 else
    if i = 3 then 6 else if i = 4 then 1 else 0

/-- A 10-byte stream of zeros: no trailer signature anywhere. -/
def zerosStream : ByteStream where
  len := 10
  byte := fun _ => 0

/-- An empty stream. -/
def emptyStream : ByteStream where
  len := 0
  byte := fun _ => 0

/-- A 30-byte stream of zeros: at offset 0 + 4 a local file header whose
fixed fields (name length, extra length included) are all zero decodes
successfully. -/
def zerosLocalStream : ByteStream where
  len := 30
  byte := fun _ => 0

/-- The all-zero local file header decoded from `zerosLocalStream`. -/
def zeroLocalHeader : LocalFileHeader where
  version := 0
  flags := { encrypted := false, data_descriptor := false }
  compression := 0
  mod_time := 0
  mod_date := 0
  crc := 0
  compressed_size := 0
  uncompressed_size := 0
  file_name_length := 0
  extra_field_length := 0

/-- A sample directory entry used by the lookup and extraction fixtures. -/
def sampleEntryA : ZipEntry where
  name := [1]
  comment := some []
  data_descriptor := false
  crc32 := some 0
  uncompressed_size := some 0
  compressed_size := some 5
  last_modified := (0, 0)
  extra := some []
  compression := .stored
  offset := some 0

/-- A second entry with the same name as `sampleEntryA` but a different
checksum, exercising first-match-wins lookup. -/
def sampleEntryB : ZipEntry :=
  { sampleEntryA with crc32 := some 1 }

/-- An archive state holding `sampleEntryA` alone. -/
def singleEntryState : ArchiveState where
  pos := 0
  entries := [sampleEntryA]
  comment := none

/-- An archive state with an empty entry list. -/
def emptyEntriesState : ArchiveState where
  pos := 0
  entries := []
  comment := none

/-! ## Claim theorems -/

/-- C1: the claim says the initial scan position is
`max(0, length − (65535 + fixed_trailer_size))`, but `read_cd` computes
`length.saturating_sub(u16::MAX - 2) = max(0, length − 65533)`.  At stream
length 100000 the code seeks to 34467, while the claimed formula gives 34443
(for the 22-byte trailer record) or 34447 (for its 18-byte post-signature
fixed portion) — so the claim fails on the code. -/
theorem read_cd_seek_window_code_bug :
    cdSeekTo 100000 = 34467 ∧
    cdSeekTo 100000 ≠ 100000 - (65535 + 22) ∧
    cdSeekTo 100000 ≠ 100000 - (65535 + 18) := by
  decide

/-- C5: whenever the trailer scan finds the signature and the decoded
trailer has mismatching disk-number fields or mismatching entry-count
fields, `read_cd` fails with the unsupported-feature error for spanned
files; the check short-circuits before the comment is read or any
directory-entry record is decoded. -/
theorem spanned_archive_rejected (s : ByteStream) (sigPos : Nat)
    (h : EndOfCentralDirectoryHeader) (pos1 : Nat)
    (hfind : findFrom s (toLeBytes END_OF_CENTRAL_DIRECTORY) (cdSeekTo s.len)
      (s.len + 1) = some sigPos)
    (hdec : EndOfCentralDirectoryHeader.from_reader s (sigPos + 4) = .ok (h, pos1))
    (hmis : h.disk_num ≠ h.start_cent_dir_disk ∨
      h.num_of_entries ≠ h.num_of_entries_disk) :
    read_cd s = .error (.featureNotSupported "Spanned/split files") := by
  simp only [read_cd]
  rw [hfind]
  simp only [bind, Except.bind, hdec]
  rw [if_pos hmis]

/-- C5 witness: a concrete 22-byte trailer whose "this disk" field is 1
while "directory start disk" is 0 makes `read_cd` fail with the
spanned-files error. -/
theorem spanned_archive_rejected_witness :
    read_cd spannedArchive = .error (.featureNotSupported "Spanned/split files") :=
  spanned_archive_rejected spannedArchive 0
    { disk_num := 1, start_cent_dir_disk := 0, num_of_entries_disk := 0,
      num_of_entries := 0, size_cent_dir := 0, cent_dir_offset := 0,
      file_comm_length := 0 } 22
    rfl rfl (Or.inl (by decide))

/-- C6: for every stream in which the trailer signature matches at no
position of the scanned window — the positions from the seek target
`cdSeekTo s.len` onward, which is exactly where the forward scan looks —
`read_cd` fails with the missing-trailer structural error
(`UnexpectedHeaderError(0, END_OF_CENTRAL_DIRECTORY)`); the scan is a total
function, so it terminates on every stream.  A signature occurrence lying
before the window (as in `maxCommentArchive`) does not help: only the
window matters. -/
theorem missing_trailer_errors (s : ByteStream)
    (h : ∀ i, cdSeekTo s.len ≤ i →
      matchesAt s (toLeBytes END_OF_CENTRAL_DIRECTORY) i = false) :
    read_cd s = .error (.unexpectedHeaderError 0 END_OF_CENTRAL_DIRECTORY) :=
  read_cd_scan_misses s h

theorem zerosStream_no_match (i : Nat) :
    matchesAt zerosStream (toLeBytes END_OF_CENTRAL_DIRECTORY) i = false := by
  have hsig : toLeBytes END_OF_CENTRAL_DIRECTORY = [80, 75, 5, 6] := by decide
  have hb : bytesAt zerosStream i 4 ≠ [80, 75, 5, 6] := by
    intro he
    have hr : List.range 4 = [0, 1, 2, 3] := by decide
    simp only [bytesAt, hr, List.map_cons, List.map_nil, List.cons.injEq] at he
    have h0 : byteAt zerosStream (i + 0) = 0 := rfl
    rw [h0] at he
    exact absurd he.1 (by decide)
  simp [matchesAt, hsig, hb]

/-- C6 witness: a 10-byte all-zero stream has no signature occurrence at any
window position, and `read_cd` fails with the missing-trailer error on it. -/
theorem missing_trailer_errors_witness :
    read_cd zerosStream = .error (.unexpectedHeaderError 0 END_OF_CENTRAL_DIRECTORY) :=
  missing_trailer_errors zerosStream (fun i _ => zerosStream_no_match i)

/-- C7: for every index at or beyond the entry count, `entry_reader` returns
the index-out-of-bounds error (no panic, i.e. not `none`), and the state —
cursor, entry list and comment alike — is returned unchanged: the failure
happens before any seek or read. -/
theorem oob_index_error (s : ByteStream) (st : ArchiveState) (index : Nat)
    (h : st.entries.length ≤ index) :
    entry_reader s st index = some (.error .entryIndexOutOfBounds, st) := by
  unfold entry_reader
  rw [List.getElem?_eq_none h]

/-- C7 witness: requesting entry 0 of an empty directory fails with the
index error and leaves the state untouched. -/
theorem oob_index_error_witness :
    entry_reader zerosStream emptyEntriesState 0 =
      some (.error .entryIndexOutOfBounds, emptyEntriesState) :=
  oob_index_error zerosStream emptyEntriesState 0 (by decide)

theorem maxCommentArchive_byte_zero (i : Nat) (h : 24 ≤ i) :
    byteAt maxCommentArchive i = 0 := by
  show (if i = 0 then 80 else if i = 1 then 75 else if i = 2 then 5 else
    if i = 3 then 6 else if i = 20 then 255 else if i = 21 then 255 else 0) % 256 = 0
  rw [if_neg (by omega), if_neg (by omega), if_neg (by omega),
    if_neg (by omega), if_neg (by omega), if_neg (by omega)]

theorem maxCommentArchive_no_match (i : Nat) (h : 24 ≤ i) :
    matchesAt maxCommentArchive (toLeBytes END_OF_CENTRAL_DIRECTORY) i = false := by
  have hsig : toLeBytes END_OF_CENTRAL_DIRECTORY = [80, 75, 5, 6] := by decide
  have hb : bytesAt maxCommentArchive i 4 ≠ [80, 75, 5, 6] := by
    intro he
    have hr : List.range 4 = [0, 1, 2, 3] := by decide
    simp only [bytesAt, hr, List.map_cons, List.map_nil, List.cons.injEq] at he
    have h0 : byteAt maxCommentArchive (i + 0) = 0 :=
      maxCommentArchive_byte_zero _ (by omega)
    rw [h0] at he
    exact absurd he.1 (by decide)
  simp [matchesAt, hsig, hb]

/-- C2: the claim requires trailer discovery to succeed on an archive with a
65535-byte trailing comment, but `read_cd` scans only the last
`u16::MAX - 2 = 65533` bytes, which cannot reach the trailer signature lying
65557 bytes before the end; on the concrete `maxCommentArchive` the open
fails with the missing-trailer error.  The 0-byte-comment half of the claim
does hold (`read_cd emptyZipArchive` succeeds with `comment = none`). -/
theorem comment_boundary_code_bug :
    read_cd emptyZipArchive = .ok ([], none) ∧
    read_cd maxCommentArchive =
      .error (.unexpectedHeaderError 0 END_OF_CENTRAL_DIRECTORY) := by
  constructor
  · rfl
  · apply read_cd_scan_misses
    intro i hi
    have h24 : cdSeekTo maxCommentArchive.len = 24 := by decide
    exact maxCommentArchive_no_match i (by omega)

/-- C4: the directory-entry loop of `read_cd` decodes records sequentially
exactly `n` times — its result is either a full list of exactly `n` entries
or an error, never a partial list — and any failure of `read_cd_entry`
(missing signature, truncated fields, unknown compression id all surface as
its errors) aborts the whole loop with that error. -/
theorem read_cd_loop_all_or_nothing :
    (∀ (s : ByteStream) (pos n : Nat),
      (∃ l p, read_cd_loop s pos n = .ok (l, p) ∧ l.length = n) ∨
      ∃ err, read_cd_loop s pos n = .error err) ∧
    (∀ (s : ByteStream) (pos n : Nat) (err : ZipError),
      read_cd_entry s pos = .error err →
      read_cd_loop s pos (n + 1) = .error err) := by
  constructor
  · intro s pos n
    induction n generalizing pos with
    | zero => exact Or.inl ⟨[], pos, rfl, rfl⟩
    | succ n ih =>
      cases hcase : read_cd_entry s pos with
      | error e =>
        exact Or.inr ⟨e, by simp [read_cd_loop, hcase, bind, Except.bind]⟩
      | ok v =>
        obtain ⟨e, pos1⟩ := v
        rcases ih pos1 with ⟨l, p, hl, hlen⟩ | ⟨err, herr⟩
        · exact Or.inl ⟨e :: l, p,
            by simp [read_cd_loop, hcase, bind, Except.bind, hl], by simp [hlen]⟩
        · exact Or.inr ⟨err,
            by simp [read_cd_loop, hcase, bind, Except.bind, herr]⟩
  · intro s pos n err h
    simp [read_cd_loop, h, bind, Except.bind]

/-- C4 witness: decoding an entry from an empty stream fails (truncated
signature), and the loop for one entry aborts with that same error. -/
theorem read_cd_loop_all_or_nothing_witness :
    read_cd_loop emptyStream 0 1 = .error .upstreamReadError :=
  read_cd_loop_all_or_nothing.2 emptyStream 0 0 .upstreamReadError rfl

theorem entry_loop_spec (name : List Nat) (l : List ZipEntry) : ∀ (k : Nat),
    (∀ i e, entry_loop name l k = some (i, e) →
      k ≤ i ∧ l[i - k]? = some e ∧ e.name = name ∧
        ∀ j, j < i - k → ∀ e', l[j]? = some e' → e'.name ≠ name) ∧
    (entry_loop name l k = none → ∀ e' ∈ l, e'.name ≠ name) := by
  induction l with
  | nil =>
    intro k
    constructor
    · intro i e h
      simp [entry_loop] at h
    · intro _ e' he'
      simp at he'
  | cons e0 rest ih =>
    intro k
    constructor
    · intro i e h
      simp only [entry_loop] at h
      split at h
      case isTrue hn =>
        simp only [Option.some.injEq, Prod.mk.injEq] at h
        obtain ⟨hk, he⟩ := h
        subst hk
        subst he
        refine ⟨le_rfl, ?_, hn, ?_⟩
        · simp
        · intro j hj
          omega
      case isFalse hn =>
        obtain ⟨hki, hget, hname, hprev⟩ := (ih (k + 1)).1 i e h
        refine ⟨by omega, ?_, hname, ?_⟩
        · have hik : i - k = (i - (k + 1)) + 1 := by omega
          rw [hik, List.getElem?_cons_succ]
          exact hget
        · intro j hj e' hje'
          cases j with
          | zero =>
            simp only [List.getElem?_cons_zero, Option.some.injEq] at hje'
            subst hje'
            exact hn
          | succ j' =>
            rw [List.getElem?_cons_succ] at hje'
            exact hprev j' (by omega) e' hje'
    · intro h e' he'
      simp only [entry_loop] at h
      split at h
      case isTrue hn => exact absurd h (by simp)
      case isFalse hn =>
        rcases List.mem_cons.mp he' with rfl | hmem
        · exact hn
        · exact (ih (k + 1)).2 h e' hmem

/-- C8: `entry` (find-by-name) is a linear scan in on-disk order: when it
returns `some (i, e)`, entry `i` of the list is `e`, its name is the queried
name, and no earlier entry has that name (first match wins among
duplicates); when it returns `none`, no entry has the queried name. -/
theorem find_entry_first_match (entries : List ZipEntry) (name : List Nat) :
    (∀ i e, find_entry entries name = some (i, e) →
      entries[i]? = some e ∧ e.name = name ∧
        ∀ j, j < i → ∀ e', entries[j]? = some e' → e'.name ≠ name) ∧
    (find_entry entries name = none → ∀ e' ∈ entries, e'.name ≠ name) := by
  constructor
  · intro i e h
    obtain ⟨_, hget, hname, hprev⟩ := (entry_loop_spec name entries 0).1 i e h
    refine ⟨by simpa using hget, hname, ?_⟩
    intro j hj e' hje'
    exact hprev j (by omega) e' hje'
  · intro h e' he'
    exact (entry_loop_spec name entries 0).2 h e' he'

/-- C8 witness: on a list with two entries of the same name, lookup returns
the first one (index 0, the smaller checksum variant). -/
theorem find_entry_first_match_witness :
    ([sampleEntryA, sampleEntryB] : List ZipEntry)[0]? = some sampleEntryA ∧
    sampleEntryA.name = [1] :=
  ⟨((find_entry_first_match [sampleEntryA, sampleEntryB] [1]).1 0 sampleEntryA
      rfl).1,
   ((find_entry_first_match [sampleEntryA, sampleEntryB] [1]).1 0 sampleEntryA
      rfl).2.1⟩

/-- A 46-byte stream holding one all-zero central-directory record (zero
name/extra/comment lengths, compression id 0). -/
def cdStream : ByteStream where
  len := 46
  byte := fun i =>
    if i = 0 then 80 else if i = 1 then 75 else if i = 2 then 1 else
    if i = 3 then 2 else 0

/-- The entry decoded from `cdStream` at position 0. -/
def cdEntry0 : ZipEntry where
  name := []
  comment := some []
  data_descriptor := false
  crc32 := some 0
  uncompressed_size := some 0
  compressed_size := some 0
  last_modified := (0, 0)
  extra := some []
  compression := .stored
  offset := some 0

/-- C3: for an in-bounds index whose entry has its offset and compressed
size recorded and whose local record decodes, `entry_reader` ends with the
cursor at `offset + 4 (signature) + 26 (fixed local record) + name_length +
extra_field_length`, returns a stream starting there using the entry's
compression method, and dispatches on the descriptor flag: flag set gives
the descriptor-signature delimiter with the unbounded (`u64::MAX`) limit,
flag clear gives no delimiter and exactly the directory-recorded
`compressed_size` as limit. -/
theorem entry_reader_dispatch (s : ByteStream) (st : ArchiveState) (index : Nat)
    (entry : ZipEntry) (off csize : Nat) (header : LocalFileHeader) (pos1 : Nat)
    (hget : st.entries[index]? = some entry)
    (hoff : entry.offset = some off)
    (hcs : entry.compressed_size = some csize)
    (hlfh : LocalFileHeader.from_reader s (off + 4) = .ok (header, pos1)) :
    ∃ d st', entry_reader s st index = some (.ok d, st') ∧
      st'.entries = st.entries ∧ st'.comment = st.comment ∧
      st'.pos = off + 4 + 26 + (header.file_name_length + header.extra_field_length) ∧
      d.startPos = st'.pos ∧
      d.compression = entry.compression ∧
      d.fromDataDescriptor = entry.data_descriptor ∧
      (entry.data_descriptor = true →
        d.delimiter = some (toLeBytes DATA_DESCRIPTOR) ∧ d.limit = U64_MAX) ∧
      (entry.data_descriptor = false → d.delimiter = none ∧ d.limit = csize) := by
  have hpos1 : pos1 = off + 4 + 26 := lfh_from_reader_pos s (off + 4) header pos1 hlfh
  cases hdd : entry.data_descriptor with
  | true =>
    refine ⟨{ startPos := pos1 + (header.file_name_length + header.extra_field_length)
              delimiter := some (toLeBytes DATA_DESCRIPTOR)
              limit := U64_MAX
              compression := entry.compression
              fromDataDescriptor := true },
            { st with pos := pos1 + (header.file_name_length + header.extra_field_length) },
            ?_, rfl, rfl, ?_, rfl, rfl, rfl,
            fun _ => ⟨rfl, rfl⟩, fun hf => absurd hf (by decide)⟩
    · simp [entry_reader, hget, hoff, hlfh, hdd]
    · show pos1 + (header.file_name_length + header.extra_field_length) =
        off + 4 + 26 + (header.file_name_length + header.extra_field_length)
      omega
  | false =>
    refine ⟨{ startPos := pos1 + (header.file_name_length + header.extra_field_length)
              delimiter := none
              limit := csize
              compression := entry.compression
              fromDataDescriptor := false },
            { st with pos := pos1 + (header.file_name_length + header.extra_field_length) },
            ?_, rfl, rfl, ?_, rfl, rfl, rfl,
            fun hf => absurd hf (by decide), fun _ => ⟨rfl, rfl⟩⟩
    · simp [entry_reader, hget, hoff, hlfh, hdd, hcs]
    · show pos1 + (header.file_name_length + header.extra_field_length) =
        off + 4 + 26 + (header.file_name_length + header.extra_field_length)
      omega

/-- C3 witness: on a 30-byte all-zero stream, opening the single entry
(offset 0, compressed size 5, no descriptor flag) produces a bounded reader
starting at byte 30 with limit 5. -/
theorem entry_reader_dispatch_witness :
    ∃ d st', entry_reader zerosLocalStream singleEntryState 0 = some (.ok d, st') ∧
      st'.entries = singleEntryState.entries ∧
      st'.comment = singleEntryState.comment ∧
      st'.pos = 0 + 4 + 26 + (zeroLocalHeader.file_name_length +
        zeroLocalHeader.extra_field_length) ∧
      d.startPos = st'.pos ∧
      d.compression = sampleEntryA.compression ∧
      d.fromDataDescriptor = sampleEntryA.data_descriptor ∧
      (sampleEntryA.data_descriptor = true →
        d.delimiter = some (toLeBytes DATA_DESCRIPTOR) ∧ d.limit = U64_MAX) ∧
      (sampleEntryA.data_descriptor = false → d.delimiter = none ∧ d.limit = 5) :=
  entry_reader_dispatch zerosLocalStream singleEntryState 0 sampleEntryA 0 5
    zeroLocalHeader 30 rfl rfl rfl rfl

/-- C9: the entry list is produced in decode order — the list returned by
the directory loop is the first decoded record consed onto the entries
decoded after it — and `entry_reader` never changes the entry list or the
comment: whatever value or error it returns, the state it leaves behind has
the same `entries` and `comment` fields as the state it was given. -/
theorem entries_order_and_immutable :
    (∀ (s : ByteStream) (pos n : Nat) (l : List ZipEntry) (p : Nat),
      read_cd_loop s pos (n + 1) = .ok (l, p) →
      ∃ e pos1 rest, read_cd_entry s pos = .ok (e, pos1) ∧
        read_cd_loop s pos1 n = .ok (rest, p) ∧ l = e :: rest) ∧
    (∀ (s : ByteStream) (st : ArchiveState) (index : Nat)
        (r : Except ZipError EntryStreamDesc) (st' : ArchiveState),
      entry_reader s st index = some (r, st') →
      st'.entries = st.entries ∧ st'.comment = st.comment) := by
  constructor
  · intro s pos n l p h
    cases hcase : read_cd_entry s pos with
    | error e => simp [read_cd_loop, hcase, bind, Except.bind] at h
    | ok v =>
      obtain ⟨e, pos1⟩ := v
      cases hloop : read_cd_loop s pos1 n with
      | error err => simp [read_cd_loop, hcase, hloop, bind, Except.bind] at h
      | ok w =>
        obtain ⟨rest, p2⟩ := w
        simp only [read_cd_loop, hcase, hloop, bind, Except.bind,
          Except.ok.injEq, Prod.mk.injEq] at h
        obtain ⟨hl, hp⟩ := h
        exact ⟨e, pos1, rest, rfl, by rw [hloop, hp], hl.symm⟩
  · intro s st index r st' h
    simp only [entry_reader] at h
    repeat' (split at h)
    all_goals
      first
        | exact Option.noConfusion h
        | (cases h; exact ⟨rfl, rfl⟩)

/-- C9 witness: opening the single entry of `singleEntryState` over the
30-byte zero stream moves the cursor to 30 but leaves the entry list and
comment exactly as they were at open. -/
theorem entries_order_and_immutable_witness :
    ({ pos := 30, entries := [sampleEntryA], comment := none } : ArchiveState).entries =
        singleEntryState.entries ∧
    ({ pos := 30, entries := [sampleEntryA], comment := none } : ArchiveState).comment =
        singleEntryState.comment :=
  entries_order_and_immutable.2 zerosLocalStream singleEntryState 0
    (.ok { startPos := 30, delimiter := none, limit := 5,
           compression := .stored, fromDataDescriptor := false })
    { pos := 30, entries := [sampleEntryA], comment := none }
    rfl

/-- C10: every entry built by `read_cd_entry` has all of its optional
fields — comment, crc32, uncompressed size, compressed size, extra, offset —
populated with `some`, and consequently, on a state whose entries all carry
`some` offset and compressed size (as all directory-loaded entries do),
`entry_reader` at any in-bounds index never panics (is never `none`). -/
theorem optional_fields_populated :
    (∀ (s : ByteStream) (pos : Nat) (e : ZipEntry) (p : Nat),
      read_cd_entry s pos = .ok (e, p) →
      e.comment.isSome ∧ e.crc32.isSome ∧ e.uncompressed_size.isSome ∧
        e.compressed_size.isSome ∧ e.extra.isSome ∧ e.offset.isSome) ∧
    (∀ (s : ByteStream) (st : ArchiveState) (index : Nat),
      index < st.entries.length →
      (∀ e ∈ st.entries, e.offset.isSome ∧ e.compressed_size.isSome) →
      entry_reader s st index ≠ none) := by
  constructor
  · intro s pos e p h
    simp only [read_cd_entry, bind, Except.bind] at h
    repeat' (split at h)
    all_goals
      first
        | exact Except.noConfusion h
        | (cases h; exact ⟨rfl, rfl, rfl, rfl, rfl, rfl⟩)
  · intro s st index hlt hall
    obtain ⟨entry, hget⟩ : ∃ e, st.entries[index]? = some e :=
      ⟨_, List.getElem?_eq_getElem hlt⟩
    have hmem : entry ∈ st.entries := List.getElem?_mem hget
    obtain ⟨hoffS, hcsS⟩ := hall entry hmem
    obtain ⟨off, hoff⟩ := Option.isSome_iff_exists.mp hoffS
    obtain ⟨csize, hcs⟩ := Option.isSome_iff_exists.mp hcsS
    cases hlfh : LocalFileHeader.from_reader s (off + 4) with
    | error err =>
      simp [entry_reader, hget, hoff, hlfh]
    | ok v =>
      obtain ⟨header, pos1⟩ := v
      cases hdd : entry.data_descriptor with
      | true => simp [entry_reader, hget, hoff, hlfh, hdd]
      | false => simp [entry_reader, hget, hoff, hlfh, hdd, hcs]

/-- C10 witness: the entry decoded from the concrete `cdStream` record has
every optional field populated. -/
theorem optional_fields_populated_witness :
    cdEntry0.comment.isSome ∧ cdEntry0.crc32.isSome ∧
      cdEntry0.uncompressed_size.isSome ∧ cdEntry0.compressed_size.isSome ∧
      cdEntry0.extra.isSome ∧ cdEntry0.offset.isSome :=
  optional_fields_populated.1 cdStream 0 cdEntry0 46 rfl
